import Mathlib

/-!
Shallow embedding of the freehand annotation / signature drawing engine of
the progress-journal repository.

Two engine instances exist in the source:
  * the multi-tool image annotator (ImageAnnotator, src/unnamed/part_000);
  * the ink-only signature pad (SignaturePad, MaintenanceCalendar.tsx).

Coordinates are modelled over the real numbers (the source uses JS doubles);
the canvas 2D context calls (beginPath / moveTo / lineTo / stroke / ellipse /
fillText) are reified as a list of drawing primitives so that the preview
render path and the export render path can be compared primitive by
primitive.
-/

set_option maxHeartbeats 1000000

namespace PJ

/-- Canvas-local point, source type {x: number, y: number}. -/
structure Point where
  x : ℝ
  y : ℝ

/-- The annotator tool set, source type Tool = pen | line | circle | arrow | text. -/
inductive Tool where
  | pen
  | line
  | circle
  | arrow
  | text
deriving DecidableEq

/-- Source type DrawAction.  The source field named end is called endP here
(end is a Lean keyword); all other field names follow the source. -/
structure DrawAction where
  tool : Tool
  color : String
  lineWidth : ℝ
  points : Option (List Point) := none
  start : Option Point := none
  endP : Option Point := none
  text : Option String := none

/-- A path command on the 2D context: moveTo begins a new subpath. -/
inductive PathCmd where
  | moveTo (p : Point)
  | lineTo (p : Point)

/-- One drawing primitive emitted while replaying an action: a stroked path
(one beginPath ... stroke group, carrying the active strokeStyle and
lineWidth), a stroked full ellipse, or filled text (carrying fillStyle and
the computed font size in px). -/
inductive Prim where
  | stroke (color : String) (width : ℝ) (cmds : List PathCmd)
  | strokeEllipse (color : String) (width cx cy rx ry : ℝ)
  | fillText (color : String) (fontSize : ℝ) (s : String) (pos : Point)

noncomputable section

/-- JS Math.atan2 semantics on finite inputs (atan2 0 0 = 0, as in IEEE-754 /
ECMAScript with positive zeros, which is what the degenerate arrow produces). -/
def atan2 (y x : ℝ) : ℝ :=
  if 0 < x then Real.arctan (y / x)
  else if x < 0 then
    (if 0 ≤ y then Real.arctan (y / x) + Real.pi else Real.arctan (y / x) - Real.pi)
  else
    (if 0 < y then Real.pi / 2 else if y < 0 then -(Real.pi / 2) else 0)

/-- Preview render of one action: the body of the forEach in redraw
(src/unnamed/part_000 lines 68-109).  The guard a.points.length > 1 is
expressed structurally as a two-cons pattern; the JS else-if chain keys on
the tool first, with missing/short geometry falling through to no output. -/
def renderAction (a : DrawAction) : List Prim :=
  match a.tool with
  | .pen =>
    match a.points with
    | some (p0 :: p1 :: ps) =>
      [Prim.stroke a.color a.lineWidth
        (PathCmd.moveTo p0 :: (p0 :: p1 :: ps).map PathCmd.lineTo)]
    | _ => []
  | .line =>
    match a.start, a.endP with
    | some s, some e =>
      [Prim.stroke a.color a.lineWidth [PathCmd.moveTo s, PathCmd.lineTo e]]
    | _, _ => []
  | .circle =>
    match a.start, a.endP with
    | some s, some e =>
      [Prim.strokeEllipse a.color a.lineWidth
        ((s.x + e.x) / 2) ((s.y + e.y) / 2)
        (|e.x - s.x| / 2) (|e.y - s.y| / 2)]
    | _, _ => []
  | .arrow =>
    match a.start, a.endP with
    | some s, some e =>
      let angle := atan2 (e.y - s.y) (e.x - s.x)
      let headLen : ℝ := 12
      [Prim.stroke a.color a.lineWidth [PathCmd.moveTo s, PathCmd.lineTo e],
       Prim.stroke a.color a.lineWidth
         [PathCmd.moveTo e,
          PathCmd.lineTo ⟨e.x - headLen * Real.cos (angle - Real.pi / 6),
                          e.y - headLen * Real.sin (angle - Real.pi / 6)⟩,
          PathCmd.moveTo e,
          PathCmd.lineTo ⟨e.x - headLen * Real.cos (angle + Real.pi / 6),
                          e.y - headLen * Real.sin (angle + Real.pi / 6)⟩]]
    | _, _ => []
  | .text =>
    match a.start, a.text with
    | some s, some t =>
      if t = "" then []
      else [Prim.fillText a.color (a.lineWidth * 5) t s]
    | _, _ => []

/-- Preview render of a whole action list, in log order. -/
def renderLog : List DrawAction → List Prim
  | [] => []
  | a :: rest => renderAction a ++ renderLog rest

/-- Export render of one action: the body of the forEach in handleSave
(src/unnamed/part_000 lines 177-217).  ctx.lineWidth is set to
a.lineWidth * scaleX before the tool branch; the arrowhead constant is
16 * scaleX here (the preview uses 12). -/
def exportAction (scaleX scaleY : ℝ) (a : DrawAction) : List Prim :=
  match a.tool with
  | .pen =>
    match a.points with
    | some (p0 :: p1 :: ps) =>
      [Prim.stroke a.color (a.lineWidth * scaleX)
        (PathCmd.moveTo ⟨p0.x * scaleX, p0.y * scaleY⟩ ::
          (p0 :: p1 :: ps).map (fun p => PathCmd.lineTo ⟨p.x * scaleX, p.y * scaleY⟩))]
    | _ => []
  | .line =>
    match a.start, a.endP with
    | some s, some e =>
      [Prim.stroke a.color (a.lineWidth * scaleX)
        [PathCmd.moveTo ⟨s.x * scaleX, s.y * scaleY⟩,
         PathCmd.lineTo ⟨e.x * scaleX, e.y * scaleY⟩]]
    | _, _ => []
  | .circle =>
    match a.start, a.endP with
    | some s, some e =>
      [Prim.strokeEllipse a.color (a.lineWidth * scaleX)
        ((s.x + e.x) / 2 * scaleX) ((s.y + e.y) / 2 * scaleY)
        (|e.x - s.x| / 2 * scaleX) (|e.y - s.y| / 2 * scaleY)]
    | _, _ => []
  | .arrow =>
    match a.start, a.endP with
    | some s, some e =>
      let sx := s.x * scaleX
      let sy := s.y * scaleY
      let ex := e.x * scaleX
      let ey := e.y * scaleY
      let angle := atan2 (ey - sy) (ex - sx)
      let headLen : ℝ := 16 * scaleX
      [Prim.stroke a.color (a.lineWidth * scaleX)
         [PathCmd.moveTo ⟨sx, sy⟩, PathCmd.lineTo ⟨ex, ey⟩],
       Prim.stroke a.color (a.lineWidth * scaleX)
         [PathCmd.moveTo ⟨ex, ey⟩,
          PathCmd.lineTo ⟨ex - headLen * Real.cos (angle - Real.pi / 6),
                          ey - headLen * Real.sin (angle - Real.pi / 6)⟩,
          PathCmd.moveTo ⟨ex, ey⟩,
          PathCmd.lineTo ⟨ex - headLen * Real.cos (angle + Real.pi / 6),
                          ey - headLen * Real.sin (angle + Real.pi / 6)⟩]]
    | _, _ => []
  | .text =>
    match a.start, a.text with
    | some s, some t =>
      if t = "" then []
      else [Prim.fillText a.color (a.lineWidth * 5 * scaleX) t
              ⟨s.x * scaleX, s.y * scaleY⟩]
    | _, _ => []

/-- Export render of the whole committed log, in log order. -/
def exportLog (scaleX scaleY : ℝ) : List DrawAction → List Prim
  | [] => []
  | a :: rest => exportAction scaleX scaleY a ++ exportLog scaleX scaleY rest

/-- Natural pixel dimensions of an image, or the preview canvas size. -/
structure Dim where
  w : ℝ
  h : ℝ

/-- Model of handleSave (src/unnamed/part_000 lines 167-219).  The source
returns early when the image ref is still null (image not yet loaded); it
never mutates the actions state, so the pair returns the log unchanged
together with the optional produced raster overlay (the base image drawing
and JPEG encoding are outside the model). -/
def handleSave (img : Option Dim) (canvasSize : Dim) (actions : List DrawAction) :
    List DrawAction × Option (List Prim) :=
  match img with
  | none => (actions, none)
  | some im =>
      (actions, some (exportLog (im.w / canvasSize.w) (im.h / canvasSize.h) actions))

/-- A DOM touch entry: only the client coordinates matter to the sampler. -/
structure Touch where
  clientX : ℝ
  clientY : ℝ

/-- A raw pointer event as seen by the handlers: either a mouse event or a
touch event carrying the active-touch and changed-touch lists. -/
inductive PointerEvent where
  | mouse (clientX clientY : ℝ)
  | touch (touches changedTouches : List Touch)

/-- getBoundingClientRect result for the canvas element. -/
structure Rect where
  left : ℝ
  top : ℝ
  width : ℝ
  height : ℝ

/-- Raw client x of an event per the annotator sampler:
touches[0]?.clientX ?? changedTouches[0]?.clientX ?? 0 for touch events,
e.clientX for mouse events (src/unnamed/part_000 lines 118-120). -/
def eventClientX : PointerEvent → ℝ
  | .mouse cx _ => cx
  | .touch ts cts =>
    match ts.head? with
    | some t => t.clientX
    | none =>
      match cts.head? with
      | some t => t.clientX
      | none => 0

/-- Raw client y, analogous to eventClientX. -/
def eventClientY : PointerEvent → ℝ
  | .mouse _ cy => cy
  | .touch ts cts =>
    match ts.head? with
    | some t => t.clientY
    | none =>
      match cts.head? with
      | some t => t.clientY
      | none => 0

/-- The annotator getPos (src/unnamed/part_000 lines 114-125): client
coordinates shifted by the canvas bounding box origin; the annotator canvas
is sized 1:1 with CSS pixels, so no backing-resolution scale is applied. -/
def getPos (rect : Rect) (e : PointerEvent) : Point :=
  ⟨eventClientX e - rect.left, eventClientY e - rect.top⟩

/-- Component state of the annotator that the gesture handlers touch. -/
structure AnnotState where
  tool : Tool
  color : String
  lineWidth : ℝ
  actions : List DrawAction
  isDrawing : Bool
  currentAction : Option DrawAction

/-- handleStart (src/unnamed/part_000 lines 127-144), at the already-sampled
position pos.  promptResult models the blocking prompt collaborator: none is
a cancelled prompt (JS null), some t a returned string; the JS truthiness
test if (text) rejects both null and the empty string.  For the text tool
the handler ends with isDrawing false and an untouched currentAction
(Idle to Committed, never Active); for pen/shape tools it enters Active. -/
def handleStart (pos : Point) (promptResult : Option String) (s : AnnotState) :
    AnnotState :=
  match s.tool with
  | .text =>
    let acts :=
      match promptResult with
      | some t =>
        if t = "" then s.actions
        else s.actions ++
          [{ tool := Tool.text, color := s.color, lineWidth := s.lineWidth,
             start := some pos, text := some t }]
      | none => s.actions
    { s with actions := acts, isDrawing := false }
  | .pen =>
    { s with isDrawing := true,
             currentAction := some
               { tool := Tool.pen, color := s.color, lineWidth := s.lineWidth,
                 points := some [pos] } }
  | _ =>
    { s with isDrawing := true,
             currentAction := some
               { tool := s.tool, color := s.color, lineWidth := s.lineWidth,
                 start := some pos, endP := some pos } }

/-- handleMove (src/unnamed/part_000 lines 146-155): no-op without an active
gesture; pen appends the sample to the point list, shape tools replace the
end point. -/
def handleMove (pos : Point) (s : AnnotState) : AnnotState :=
  if s.isDrawing = false then s
  else
    match s.currentAction with
    | none => s
    | some ca =>
      match s.tool with
      | .pen =>
        let moved := { ca with points := some ((ca.points.getD []) ++ [pos]) }
        { s with currentAction := some moved }
      | _ =>
        { s with currentAction := some ({ ca with endP := some pos }) }

/-- handleEnd (src/unnamed/part_000 lines 157-163): commits the in-progress
action by appending it to the log and clears the in-progress slot. -/
def handleEnd (s : AnnotState) : AnnotState :=
  if s.isDrawing = false then s
  else
    match s.currentAction with
    | none => s
    | some ca =>
      { s with isDrawing := false, actions := s.actions ++ [ca],
               currentAction := none }

/-- undo (src/unnamed/part_000 line 165): prev.slice(0, -1), i.e. drop the
last committed action (empty log stays empty). -/
def undo (actions : List DrawAction) : List DrawAction :=
  actions.dropLast

/-- Committing appends to the log (setActions(prev => [...prev, a])). -/
def commit (actions : List DrawAction) (a : DrawAction) : List DrawAction :=
  actions ++ [a]

end

namespace Sig

/-- The signature pad stroke color literal (MaintenanceCalendar.tsx). -/
def inkColor : String := "hsl(var(--foreground))"

noncomputable section

/-- SignaturePad.getPos (MaintenanceCalendar.tsx lines 323-332): the pad
renders at a fixed internal resolution, so client coordinates are rescaled
by canvas.width / rect.width (resp. height); the touch fallback chain is
touches[0]?.clientX ?? 0 with no changedTouches fallback. -/
def getPos (rect : Rect) (canvasW canvasH : ℝ) (e : PointerEvent) : Point :=
  let scaleX := canvasW / rect.width
  let scaleY := canvasH / rect.height
  let clientX :=
    match e with
    | .mouse cx _ => cx
    | .touch ts _ =>
      match ts.head? with
      | some t => t.clientX
      | none => 0
  let clientY :=
    match e with
    | .mouse _ cy => cy
    | .touch ts _ =>
      match ts.head? with
      | some t => t.clientY
      | none => 0
  ⟨(clientX - rect.left) * scaleX, (clientY - rect.top) * scaleY⟩

/-- SignaturePad.undo (MaintenanceCalendar.tsx lines 358-364): drop the last
path; when the remaining list is empty, clear the has-strokes flag. -/
def undo (paths : List (List Point)) (hasStrokes : Bool) :
    List (List Point) × Bool :=
  let next := paths.dropLast
  (next, if next.length = 0 then false else hasStrokes)

/-- Replace the last recorded path by itself extended with pos; the source
writes updated[updated.length - 1] = [...last, pos], which presupposes a
nonempty path list (guaranteed whenever isDrawing was set by a start); on
an empty list this is modelled as a no-op. -/
def updateLast : List (List Point) → Point → List (List Point)
  | [], _ => []
  | [path], pos => [path ++ [pos]]
  | path :: rest, pos => path :: updateLast rest pos

/-- Signature pad component state touched by the gesture handlers. -/
structure SigState where
  paths : List (List Point)
  isDrawing : Bool
  hasStrokes : Bool

/-- Initial state of a blank pad (no initialSignature prop). -/
def blankInit : SigState := ⟨[], false, false⟩

/-- Signature pad events at already-sampled positions: handleStart,
handleMove, handleEnd, undo button, clear button. -/
inductive SigEvent where
  | startEv (pos : Point)
  | moveEv (pos : Point)
  | endEv
  | undoEv
  | clearEv

/-- One event step of the signature pad (MaintenanceCalendar.tsx):
handleStart sets isDrawing and hasStrokes and opens a new one-point path;
handleMove extends the last path while drawing; handleEnd clears isDrawing;
undo drops the last path (clearing hasStrokes when none remain); clear
resets paths and hasStrokes. -/
def sigStep (s : SigState) : SigEvent → SigState
  | .startEv pos => ⟨s.paths ++ [[pos]], true, true⟩
  | .moveEv pos =>
      if s.isDrawing = true then ⟨updateLast s.paths pos, s.isDrawing, s.hasStrokes⟩
      else s
  | .endEv => ⟨s.paths, false, s.hasStrokes⟩
  | .undoEv =>
      let u := undo s.paths s.hasStrokes
      ⟨u.1, s.isDrawing, u.2⟩
  | .clearEv => ⟨[], s.isDrawing, false⟩

/-- Run a blank pad through a sequence of events. -/
def runSig (evs : List SigEvent) : SigState :=
  evs.foldl sigStep blankInit

/-- The pad's redraw rasterizes each recorded path of at least two points as
a round-capped polyline at width 2 (MaintenanceCalendar.tsx redraw). -/
def sigRender : List (List Point) → List Prim
  | [] => []
  | path :: rest =>
    (match path with
     | p0 :: p1 :: ps =>
       [Prim.stroke inkColor 2 (PathCmd.moveTo p0 :: (p0 :: p1 :: ps).map PathCmd.lineTo)]
     | _ => []) ++ sigRender rest

/-- SignaturePad.handleSave (MaintenanceCalendar.tsx lines 366-370): when the
has-strokes flag is clear the handler returns without calling onSave;
otherwise onSave receives the canvas raster (modelled as the rendered
paths) and the trimmed signer name. -/
def sigHandleSave (s : SigState) (signerName : String) :
    Option (List Prim × String) :=
  if s.hasStrokes = true then some (sigRender s.paths, signerName.trim) else none

end

end Sig

end PJ

open PJ

/-- Drop-last of a log that ends in a given action recovers the prefix. -/
theorem dropLast_append_single {α : Type} (l : List α) (a : α) :
    (l ++ [a]).dropLast = l := by
  simp

/-- C5: undo removes exactly the single most-recently committed action (LIFO,
no redo): for any prior log, undoing after a commit restores the prior log,
committing A1, A2, A3 to the empty log and undoing twice leaves [A1], and the
signature pad's undo likewise drops exactly the last recorded path. -/
theorem c5_undo_is_lifo (L : List DrawAction) (a a1 a2 a3 : DrawAction)
    (ps : List (List Point)) (q : List Point) (h : Bool) :
    undo (commit L a) = L ∧
    undo (undo (commit (commit (commit [] a1) a2) a3)) = [a1] ∧
    (Sig.undo (ps ++ [q]) h).1 = ps := by
  refine ⟨?_, ?_, ?_⟩
  · simp [undo, commit]
  · simp [undo, commit]
  · simp [Sig.undo]

/-- C6: if the source image has not loaded when save is invoked, handleSave
is a no-op: no raster is produced (no onSave), and the action log is left
unchanged. -/
theorem c6_save_noop_without_image (cs : Dim) (L : List DrawAction) :
    handleSave none cs L = (L, none) := rfl

/-- C8: a freehand-pen action holding exactly one point emits no drawing
primitive in the preview render nor in the export render at any scale, yet
gesture end still appends it to the action log as a committed entry, and
undo removes exactly it. -/
theorem c8_single_point_pen (c : String) (w : ℝ) (p : Point) (sX sY : ℝ)
    (L : List DrawAction) (tl : Tool) :
    renderAction ⟨Tool.pen, c, w, some [p], none, none, none⟩ = [] ∧
    exportAction sX sY ⟨Tool.pen, c, w, some [p], none, none, none⟩ = [] ∧
    (handleEnd ⟨tl, c, w, L, true, some ⟨Tool.pen, c, w, some [p], none, none, none⟩⟩).actions
      = L ++ [⟨Tool.pen, c, w, some [p], none, none, none⟩] ∧
    undo (L ++ [⟨Tool.pen, c, w, some [p], none, none, none⟩]) = L := by
  refine ⟨rfl, rfl, ?_, ?_⟩
  · simp [handleEnd]
  · simp [undo]

/-- C9: undo on an empty committed log is a no-op in both engine instances:
the annotator log stays empty, and the signature pad's path list stays empty
with the has-strokes flag ending cleared (for either prior flag value). -/
theorem c9_undo_on_empty (h : Bool) :
    undo ([] : List DrawAction) = [] ∧ Sig.undo [] h = ([], false) := by
  exact ⟨rfl, rfl⟩

/-- Extending the last path never changes whether the path list is empty. -/
theorem sig_updateLast_eq_nil_iff (ps : List (List Point)) (pos : Point) :
    Sig.updateLast ps pos = [] ↔ ps = [] := by
  cases ps with
  | nil => simp [Sig.updateLast]
  | cons p rest => cases rest <;> simp [Sig.updateLast]

/-- One signature pad event preserves the invariant that the has-strokes flag
is set exactly when at least one path is recorded. -/
theorem sig_step_inv (s : Sig.SigState) (e : Sig.SigEvent)
    (h : s.hasStrokes = true ↔ s.paths ≠ []) :
    ((Sig.sigStep s e).hasStrokes = true ↔ (Sig.sigStep s e).paths ≠ []) := by
  cases e with
  | startEv pos => simp [Sig.sigStep]
  | moveEv pos =>
    by_cases hd : s.isDrawing = true
    · simp only [Sig.sigStep, hd, if_true]
      rw [h]
      simp [Ne, sig_updateLast_eq_nil_iff]
    · simp only [Sig.sigStep, hd, if_false]
      exact h
  | endEv => simpa [Sig.sigStep] using h
  | undoEv =>
    simp only [Sig.sigStep, Sig.undo]
    by_cases hn : s.paths.dropLast.length = 0
    · have hz : s.paths.dropLast = [] := List.length_eq_zero.mp hn
      simp [hn, hz]
    · have hne : s.paths.dropLast ≠ [] := by
        intro hx
        exact hn (by simp [hx])
      have hps : s.paths ≠ [] := by
        intro hx
        exact hne (by simp [hx])
      have hn' : ¬s.paths.length - 1 = 0 := by simpa using hn
      simp [hn', hne, h, hps]
  | clearEv => simp [Sig.sigStep]

/-- Every run of the signature pad preserves the flag/paths invariant. -/
theorem sig_run_inv (evs : List Sig.SigEvent) :
    ∀ s : Sig.SigState, (s.hasStrokes = true ↔ s.paths ≠ []) →
      ((evs.foldl Sig.sigStep s).hasStrokes = true ↔
        (evs.foldl Sig.sigStep s).paths ≠ []) := by
  induction evs with
  | nil =>
    intro s h
    simpa using h
  | cons e rest ih =>
    intro s h
    simpa [List.foldl] using ih (Sig.sigStep s e) (sig_step_inv s e h)

/-- C10: the signature pad save handler invokes onSave exactly when the
has-strokes flag is set; on a blank pad it is a no-op (onSave never fires),
and on every run from the blank pad the flag is set exactly when at least
one stroke path is currently recorded. -/
theorem c10_signature_save_requires_strokes (evs : List Sig.SigEvent)
    (n : String) (s : Sig.SigState) :
    (Sig.sigHandleSave s n).isSome = s.hasStrokes ∧
    Sig.sigHandleSave Sig.blankInit n = none ∧
    ((Sig.runSig evs).hasStrokes = true ↔ (Sig.runSig evs).paths ≠ []) := by
  refine ⟨?_, rfl, ?_⟩
  · cases hs : s.hasStrokes <;> simp [Sig.sigHandleSave, hs]
  · exact sig_run_inv evs Sig.blankInit (by simp [Sig.blankInit, Sig.runSig])

/-- C3 counterexample: on a touch-end event whose active-touch list is empty
(the terminating touch being at client (100, 50)), the signature pad sampler
yields the default-coordinate point (0, 0), not the point derived from the
terminating changed-touch entry, refuting the claim for that engine
instance.  (Canvas 600 x 200 shown at CSS size 600 x 200 at origin, so the
backing-resolution scale is 1.) -/
theorem c3_counterexample_sigpad_ignores_changed_touch :
    Sig.getPos ⟨0, 0, 600, 200⟩ 600 200
        (PointerEvent.touch [] [⟨100, 50⟩]) = ⟨0, 0⟩ ∧
    (⟨0, 0⟩ : Point) ≠ (⟨100, 50⟩ : Point) := by
  constructor
  · simp [Sig.getPos, Point.mk.injEq]
  · intro hContra
    have hx : (0 : ℝ) = 100 := congrArg Point.x hContra
    norm_num at hx

/-- C3 amended: both samplers handle mouse and touch events; on a touch
event with an empty active-touch list the annotator sampler falls back to
the terminating changed-touch entry, while the signature pad sampler lacks
that fallback and uses default client coordinate 0 instead. -/
theorem c3_getpos_touch_fallbacks (rect : Rect) (cw ch x y : ℝ)
    (ct : Touch) (cts : List Touch) :
    getPos rect (PointerEvent.mouse x y) = ⟨x - rect.left, y - rect.top⟩ ∧
    Sig.getPos rect cw ch (PointerEvent.mouse x y)
      = ⟨(x - rect.left) * (cw / rect.width), (y - rect.top) * (ch / rect.height)⟩ ∧
    getPos rect (PointerEvent.touch [] (ct :: cts))
      = ⟨ct.clientX - rect.left, ct.clientY - rect.top⟩ ∧
    Sig.getPos rect cw ch (PointerEvent.touch [] (ct :: cts))
      = ⟨(0 - rect.left) * (cw / rect.width), (0 - rect.top) * (ch / rect.height)⟩ :=
  ⟨rfl, rfl, rfl, rfl⟩

/-- C7: with the text tool a gesture start never enters the Active state:
the in-progress slot is untouched and isDrawing ends false; a non-empty
prompt result appends a fully formed committed text action directly to the
log, while a cancelled (none) or empty prompt result leaves the log
unchanged. -/
theorem c7_text_tool_skips_active (c : String) (w : ℝ) (L : List DrawAction)
    (d : Bool) (ca : Option DrawAction) (pos : Point) (t : String) :
    handleStart pos (some t) ⟨Tool.text, c, w, L, d, ca⟩
      = ⟨Tool.text, c, w,
         (if t = "" then L
          else L ++ [⟨Tool.text, c, w, none, some pos, none, some t⟩]),
         false, ca⟩ ∧
    handleStart pos none ⟨Tool.text, c, w, L, d, ca⟩
      = ⟨Tool.text, c, w, L, false, ca⟩ := by
  constructor
  · by_cases ht : t = "" <;> simp [handleStart, ht]
  · rfl

/-- JS Math.atan2 of 0 and a positive x is 0. -/
theorem atan2_zero_of_pos (x : ℝ) (hx : 0 < x) : atan2 0 x = 0 := by
  simp [atan2, hx, Real.arctan_zero]

/-- JS Math.atan2 at the origin (positive zeros) is 0, not NaN. -/
theorem atan2_zero_zero : atan2 0 0 = 0 := by
  norm_num [atan2]

/-- At scale factors 1, 1 the export render of a non-text, non-arrow action
emits exactly the preview primitives. -/
theorem exportAction_at_scale_one (a : DrawAction) (ht : a.tool ≠ Tool.text)
    (ha : a.tool ≠ Tool.arrow) : exportAction 1 1 a = renderAction a := by
  cases htool : a.tool with
  | pen =>
    simp only [exportAction, renderAction, htool]
    cases hp : a.points with
    | none => rfl
    | some ps =>
      cases ps with
      | nil => rfl
      | cons p0 rest =>
        cases rest with
        | nil => rfl
        | cons p1 ps' => simp [mul_one]
  | line =>
    simp only [exportAction, renderAction, htool]
    cases a.start <;> cases a.endP <;> simp [mul_one]
  | circle =>
    simp only [exportAction, renderAction, htool]
    cases a.start <;> cases a.endP <;> simp [mul_one]
  | arrow => exact absurd htool ha
  | text => exact absurd htool ht

/-- C4: export scales point x coordinates by scaleX and y coordinates by
scaleY independently, scales strokeWidth and the font-size and
arrowhead-length constants by scaleX only (pen general form, text general
form, arrow at scaleX = 2 and scaleY = 5 showing head length 16 * 2 = 32),
and the concrete scenario: pen [(10,10),(20,20),(30,10)] width 3 at preview
300 x 200 exported to 900 x 600 passes through (30,30), (60,60), (90,30)
with stroke width 9. -/
theorem c4_export_scaling (c : String) (w sX sY : ℝ) (p0 p1 : Point)
    (ps : List Point) (pos : Point) :
    exportAction sX sY ⟨Tool.pen, c, w, some (p0 :: p1 :: ps), none, none, none⟩
      = [Prim.stroke c (w * sX)
          (PathCmd.moveTo ⟨p0.x * sX, p0.y * sY⟩ ::
            (p0 :: p1 :: ps).map (fun p => PathCmd.lineTo ⟨p.x * sX, p.y * sY⟩))] ∧
    exportAction sX sY ⟨Tool.text, c, w, none, some pos, none, some "hi"⟩
      = [Prim.fillText c (w * 5 * sX) "hi" ⟨pos.x * sX, pos.y * sY⟩] ∧
    exportAction 2 5 ⟨Tool.arrow, c, 3, none, some ⟨0, 0⟩, some ⟨10, 0⟩, none⟩
      = [Prim.stroke c 6 [PathCmd.moveTo ⟨0, 0⟩, PathCmd.lineTo ⟨20, 0⟩],
         Prim.stroke c 6
           [PathCmd.moveTo ⟨20, 0⟩,
            PathCmd.lineTo ⟨20 - 16 * Real.sqrt 3, 16⟩,
            PathCmd.moveTo ⟨20, 0⟩,
            PathCmd.lineTo ⟨20 - 16 * Real.sqrt 3, -16⟩]] ∧
    handleSave (some ⟨900, 600⟩) ⟨300, 200⟩
        [⟨Tool.pen, "#ef4444", 3, some [⟨10, 10⟩, ⟨20, 20⟩, ⟨30, 10⟩], none, none, none⟩]
      = ([⟨Tool.pen, "#ef4444", 3, some [⟨10, 10⟩, ⟨20, 20⟩, ⟨30, 10⟩], none, none, none⟩],
         some [Prim.stroke "#ef4444" 9
           [PathCmd.moveTo ⟨30, 30⟩, PathCmd.lineTo ⟨30, 30⟩,
            PathCmd.lineTo ⟨60, 60⟩, PathCmd.lineTo ⟨90, 30⟩]]) := by
  refine ⟨rfl, ?_, ?_, ?_⟩
  · simp [exportAction]
  · have hang : atan2 ((0:ℝ) * 5 - 0 * 5) ((10:ℝ) * 2 - 0 * 2) = 0 := by
      norm_num
      exact atan2_zero_of_pos 20 (by norm_num)
    simp only [exportAction, hang]
    norm_num [Point.mk.injEq, Real.cos_pi_div_six, Real.sin_pi_div_six,
      zero_sub, zero_add, Real.cos_neg, Real.sin_neg]
    ring_nf
  · simp only [handleSave, exportLog, exportAction, List.append_nil,
      List.map_cons, List.map_nil]
    norm_num [Point.mk.injEq]

/-- C2 counterexample: the arrow action with start = end = (5, 5) is not
rendered wing-less: the render emits the degenerate shaft and a second
stroke whose wing segments reach the point (5 - 6 sqrt 3, 11), which
differs from the anchor (5, 5) — so arrowhead wings are drawn, refuting
the claimed visually-no-op result. -/
theorem c2_counterexample_wings_drawn :
    renderAction ⟨Tool.arrow, "#ef4444", 3, none, some ⟨5, 5⟩, some ⟨5, 5⟩, none⟩
      = [Prim.stroke "#ef4444" 3 [PathCmd.moveTo ⟨5, 5⟩, PathCmd.lineTo ⟨5, 5⟩],
         Prim.stroke "#ef4444" 3
           [PathCmd.moveTo ⟨5, 5⟩,
            PathCmd.lineTo ⟨5 - 6 * Real.sqrt 3, 11⟩,
            PathCmd.moveTo ⟨5, 5⟩,
            PathCmd.lineTo ⟨5 - 6 * Real.sqrt 3, -1⟩]] ∧
    (⟨5 - 6 * Real.sqrt 3, 11⟩ : Point) ≠ (⟨5, 5⟩ : Point) := by
  constructor
  · have hang : atan2 ((5:ℝ) - 5) ((5:ℝ) - 5) = 0 := by
      norm_num [atan2_zero_zero]
    simp only [renderAction, hang]
    norm_num [Point.mk.injEq, Real.cos_pi_div_six, Real.sin_pi_div_six,
      zero_sub, zero_add, Real.cos_neg, Real.sin_neg]
    ring_nf
  · intro hContra
    have hy : (11 : ℝ) = 5 := congrArg Point.y hContra
    norm_num at hy

/-- C2 amended: a zero-length arrow renders without throwing and without any
NaN coordinate — the angle is atan2 0 0 = 0 and every emitted coordinate is
the well-defined real number shown — but the arrowhead wings ARE drawn: the
output is the degenerate shaft plus two wing segments of length 12 from the
common point, oriented as if the arrow pointed along the positive x axis. -/
theorem c2_degenerate_arrow_renders_wings (p : Point) (c : String) (w : ℝ) :
    renderAction ⟨Tool.arrow, c, w, none, some p, some p, none⟩
      = [Prim.stroke c w [PathCmd.moveTo p, PathCmd.lineTo p],
         Prim.stroke c w
           [PathCmd.moveTo p,
            PathCmd.lineTo ⟨p.x - 6 * Real.sqrt 3, p.y + 6⟩,
            PathCmd.moveTo p,
            PathCmd.lineTo ⟨p.x - 6 * Real.sqrt 3, p.y - 6⟩]] := by
  have hang : atan2 (p.y - p.y) (p.x - p.x) = 0 := by
    simp [sub_self, atan2_zero_zero]
  simp only [renderAction, hang]
  norm_num [Point.mk.injEq, Real.cos_pi_div_six, Real.sin_pi_div_six,
    zero_sub, zero_add, Real.cos_neg, Real.sin_neg]
  ring_nf

/-- C1 counterexample: a log holding one committed arrow from (0, 0) to
(10, 0) violates the claimed equality of export at scale 1 with the preview
render: the preview arrowhead uses length 12 (wing y = 6) while the export
uses 16 * scaleX = 16 (wing y = 8), so the primitive sequences differ. -/
theorem c1_counterexample_arrow_roundtrip :
    exportLog 1 1 [⟨Tool.arrow, "#ef4444", 3, none, some ⟨0, 0⟩, some ⟨10, 0⟩, none⟩]
      ≠ renderLog [⟨Tool.arrow, "#ef4444", 3, none, some ⟨0, 0⟩, some ⟨10, 0⟩, none⟩] := by
  have hang : atan2 ((0:ℝ) - 0) ((10:ℝ) - 0) = 0 := by
    norm_num
    exact atan2_zero_of_pos 10 (by norm_num)
  have hang' : atan2 ((0:ℝ) * 1 - 0 * 1) ((10:ℝ) * 1 - 0 * 1) = 0 := by
    norm_num
    exact atan2_zero_of_pos 10 (by norm_num)
  have h1 : exportLog 1 1 [⟨Tool.arrow, "#ef4444", 3, none, some ⟨0, 0⟩, some ⟨10, 0⟩, none⟩]
      = [Prim.stroke "#ef4444" 3 [PathCmd.moveTo ⟨0, 0⟩, PathCmd.lineTo ⟨10, 0⟩],
         Prim.stroke "#ef4444" 3
           [PathCmd.moveTo ⟨10, 0⟩,
            PathCmd.lineTo ⟨10 - 8 * Real.sqrt 3, 8⟩,
            PathCmd.moveTo ⟨10, 0⟩,
            PathCmd.lineTo ⟨10 - 8 * Real.sqrt 3, -8⟩]] := by
    simp only [exportLog, exportAction, hang', List.append_nil]
    norm_num [Point.mk.injEq, Real.cos_pi_div_six, Real.sin_pi_div_six,
      zero_sub, zero_add, Real.cos_neg, Real.sin_neg]
    ring_nf
  have h2 : renderLog [⟨Tool.arrow, "#ef4444", 3, none, some ⟨0, 0⟩, some ⟨10, 0⟩, none⟩]
      = [Prim.stroke "#ef4444" 3 [PathCmd.moveTo ⟨0, 0⟩, PathCmd.lineTo ⟨10, 0⟩],
         Prim.stroke "#ef4444" 3
           [PathCmd.moveTo ⟨10, 0⟩,
            PathCmd.lineTo ⟨10 - 6 * Real.sqrt 3, 6⟩,
            PathCmd.moveTo ⟨10, 0⟩,
            PathCmd.lineTo ⟨10 - 6 * Real.sqrt 3, -6⟩]] := by
    simp only [renderLog, renderAction, hang, List.append_nil]
    norm_num [Point.mk.injEq, Real.cos_pi_div_six, Real.sin_pi_div_six,
      zero_sub, zero_add, Real.cos_neg, Real.sin_neg]
    ring_nf
  rw [h1, h2]
  intro h
  simp only [List.cons.injEq, Prim.stroke.injEq, PathCmd.lineTo.injEq,
    PathCmd.moveTo.injEq, Point.mk.injEq] at h
  norm_num at h

/-- C1 amended: for every committed log containing neither text nor arrow
actions, exporting at scale factors 1, 1 emits exactly the primitive
sequence of the live preview render (the arrow exclusion is forced by the
differing arrowhead-length constants, 12 in preview versus 16 in export). -/
theorem c1_scale_one_export_matches_preview (L : List DrawAction)
    (h : ∀ a ∈ L, a.tool ≠ Tool.text ∧ a.tool ≠ Tool.arrow) :
    exportLog 1 1 L = renderLog L := by
  induction L with
  | nil => rfl
  | cons a rest ih =>
    have ha := h a (by simp)
    have hrest : ∀ b ∈ rest, b.tool ≠ Tool.text ∧ b.tool ≠ Tool.arrow := by
      intro b hb
      exact h b (by simp [hb])
    simp only [exportLog, renderLog, exportAction_at_scale_one a ha.1 ha.2, ih hrest]

/-- Witness for the amended C1 theorem at the concrete one-element log
holding a committed straight line from (1, 2) to (3, 4). -/
theorem c1_scale_one_witness :
    (∀ a ∈ [(⟨Tool.line, "#3b82f6", 2, none, some ⟨1, 2⟩, some ⟨3, 4⟩, none⟩ : DrawAction)],
        a.tool ≠ Tool.text ∧ a.tool ≠ Tool.arrow) ∧
    exportLog 1 1 [(⟨Tool.line, "#3b82f6", 2, none, some ⟨1, 2⟩, some ⟨3, 4⟩, none⟩ : DrawAction)]
      = renderLog [(⟨Tool.line, "#3b82f6", 2, none, some ⟨1, 2⟩, some ⟨3, 4⟩, none⟩ : DrawAction)] := by
  have hh : ∀ a ∈ [(⟨Tool.line, "#3b82f6", 2, none, some ⟨1, 2⟩, some ⟨3, 4⟩, none⟩ : DrawAction)],
      a.tool ≠ Tool.text ∧ a.tool ≠ Tool.arrow := by
    intro a ha
    rw [List.mem_singleton] at ha
    subst ha
    exact ⟨by decide, by decide⟩
  exact ⟨hh, c1_scale_one_export_matches_preview _ hh⟩
